import Mathlib

/-!
Shallow embedding of `src/main.py` (Telegram-Post-Reactor), centred on
`TelegramAccountManager.react_to_message`, `process_old_messages`,
`handle_new_message` and `run`.

Modelling conventions:
* Randomness and network outcomes are supplied by oracles.  `random.randint(1, 2)`
  is modelled by a boolean draw (`two`), `random.sample`'s draws by a stream of
  natural numbers (`sel`), and whether `client.send_reaction` raises by `sendFails`.
* Observable behaviour is a list of `Event`s: a network submission, a sleep of a
  uniformly drawn duration (recorded by its bounds), a deterministic backoff sleep,
  a failure report, a history fetch, a handler registration, a live-handler
  invocation and a `client.stop()` attempt.
* Machine state is the `processed_messages` set, modelled as a `Finset Nat`.
-/

/-- Observable events of one process run. -/
inductive Event where
  | submit (client : Nat) (emoji : String)
  | sleepUniform (lo hi : Nat)
  | sleep (secs : Nat)
  | reportFailure (client : Nat)
  | fetchHistory (client : Nat)
  | register (client : Nat)
  | liveEvent (mid : Nat)
  | stopAttempt (client : Nat)
  deriving DecidableEq

/-- `self.max_retries = 3` (main.py line 17). -/
def max_retries : Nat := 3

/-- `self.retry_delay = 5` (main.py line 18). -/
def retry_delay : Nat := 5

/-- Oracle for the random draws and network outcomes of one dispatch call.
`two ci ti` models `random.randint(1, 2) = 2` at client `ci`, try `ti`;
`sel ci ti s` the s-th draw of `random.sample` there; `sendFails ci ti j`
whether the `send_reaction` for the j-th selected reaction raises. -/
structure DispatchOracle where
  two : Nat → Nat → Bool
  sel : Nat → Nat → Nat → Nat
  sendFails : Nat → Nat → Nat → Bool

/-- Draw `k` elements without replacement: each step removes the drawn element
from the remaining population. -/
def sampleAux (sel : Nat → Nat) : List String → Nat → Nat → List String
  | _, 0, _ => []
  | pop, k + 1, step =>
    let i := sel step % pop.length
    pop.getD i "" :: sampleAux sel (pop.eraseIdx i) k (step + 1)

/-- `random.sample(pop, k)` (main.py line 101): raises `ValueError` (here `none`)
when `k` exceeds the population size, otherwise `k` draws without replacement. -/
def sample (pop : List String) (k : Nat) (sel : Nat → Nat) : Option (List String) :=
  if k ≤ pop.length then some (sampleAux sel pop k 0) else none

/-- `num_reactions = random.randint(1, 2)` (main.py line 100). -/
def num_reactions (o : DispatchOracle) (ci ti : Nat) : Nat :=
  if o.two ci ti then 2 else 1

/-- `selected_reactions = random.sample(self.reactions, num_reactions)`
(main.py line 101); `none` when that call raises. -/
def selected_reactions (reactions : List String) (o : DispatchOracle) (ci ti : Nat) :
    Option (List String) :=
  sample reactions (num_reactions o ci ti) (o.sel ci ti)

/-- The `for reaction in selected_reactions` loop (main.py lines 103-109): each
submission is followed by `asyncio.sleep(random.uniform(2, 4))`; a raising
submission aborts the loop (the exception leaves the `try` block).  Returns the
events and whether the loop finished without an exception. -/
def submitLoop (o : DispatchOracle) (ci ti : Nat) : List String → Nat → List Event × Bool
  | [], _ => ([], true)
  | r :: rs, j =>
    if o.sendFails ci ti j then ([Event.submit ci r], false)
    else
      let rest := submitLoop o ci ti rs (j + 1)
      (Event.submit ci r :: Event.sleepUniform 2 4 :: rest.1, rest.2)

/-- The body of one `try` (main.py lines 99-111): sampling may itself raise
(before any submission), otherwise the submissions run. -/
def runTry (reactions : List String) (o : DispatchOracle) (ci ti : Nat) :
    List Event × Bool :=
  match selected_reactions reactions o ci ti with
  | none => ([], false)
  | some picked => submitLoop o ci ti picked 0

/-- The `while retries < self.max_retries` loop (main.py lines 98-119), with
explicit fuel (the loop runs at most `max_retries` iterations).  A failed try
increments `retries`; if tries remain it sleeps `retry_delay * retries`,
otherwise it reports failure for this client. -/
def runRetriesAux (reactions : List String) (o : DispatchOracle) (ci : Nat) :
    Nat → Nat → List Event
  | 0, _ => []
  | fuel + 1, retries =>
    if retries < max_retries then
      let t := runTry reactions o ci retries
      if t.2 then t.1
      else if retries + 1 < max_retries then
        t.1 ++ Event.sleep (retry_delay * (retries + 1)) ::
          runRetriesAux reactions o ci fuel (retries + 1)
      else t.1 ++ [Event.reportFailure ci]
    else []

/-- The retry loop entered with `retries = 0`. -/
def runRetries (reactions : List String) (o : DispatchOracle) (ci : Nat) : List Event :=
  runRetriesAux reactions o ci max_retries 0

/-- One client's share of a dispatch (main.py lines 96-121): the retry loop,
then `asyncio.sleep(random.uniform(4, 7))`. -/
def clientEvents (reactions : List String) (o : DispatchOracle) (ci : Nat) : List Event :=
  runRetries reactions o ci ++ [Event.sleepUniform 4 7]

/-- `react_to_message` (main.py lines 91-121): return immediately when the id is
already processed, otherwise add it to `processed_messages` and run every
client's submission sequence in registration order. -/
def react_to_message (reactions : List String) (numClients : Nat) (o : DispatchOracle)
    (processed : Finset Nat) (message_id : Nat) : Finset Nat × List Event :=
  if message_id ∈ processed then (processed, [])
  else
    (insert message_id processed,
      ((List.range numClients).map (clientEvents reactions o)).flatten)

/-- One iteration of the backlog's `async for` body (main.py lines 127-129):
dispatch the message, then `asyncio.sleep(random.uniform(5, 8))`.  The dispatch
oracle may depend on the message id (`dor`). -/
def backlogStep (reactions : List String) (n : Nat) (dor : Nat → DispatchOracle)
    (acc : Finset Nat × List Event) (mid : Nat) : Finset Nat × List Event :=
  let r := react_to_message reactions n (dor mid) acc.1 mid
  (r.1, acc.2 ++ r.2 ++ [Event.sleepUniform 5 8])

/-- The backlog's `async for` over the retrieved messages. -/
def backlogLoop (reactions : List String) (n : Nat) (dor : Nat → DispatchOracle)
    (st : Finset Nat) (msgs : List Nat) : Finset Nat × List Event :=
  msgs.foldl (backlogStep reactions n dor) (st, [])

/-- `process_old_messages` (main.py lines 123-132): `self.clients[0]` retrieves
`get_chat_history(self.channel_id, limit=100)`; `history` is the channel's
history and the capability yields at most 100 of it; `histErrAfter = some k`
models the retrieval raising after `k` yields, which the `except` catches, so
only the first `k` messages are processed and the call still returns.  With no
clients, `self.clients[0]` raises `IndexError`, also caught. -/
def process_old_messages (reactions : List String) (n : Nat) (dor : Nat → DispatchOracle)
    (history : List Nat) (histErrAfter : Option Nat) (st : Finset Nat) :
    Finset Nat × List Event :=
  if n = 0 then (st, [])
  else
    let yielded := match histErrAfter with
      | none => history.take 100
      | some k => (history.take 100).take k
    let r := backlogLoop reactions n dor st yielded
    (r.1, Event.fetchHistory 0 :: r.2)

/-- `handle_new_message` (main.py lines 134-136): record the handler invocation,
sleep a 1-3s jitter, then dispatch. -/
def handle_new_message (reactions : List String) (n : Nat) (dor : Nat → DispatchOracle)
    (st : Finset Nat) (mid : Nat) : Finset Nat × List Event :=
  let r := react_to_message reactions n (dor mid) st mid
  (r.1, Event.liveEvent mid :: Event.sleepUniform 1 3 :: r.2)

/-- The live phase: the registered handlers invoked once per arriving message. -/
def liveLoop (reactions : List String) (n : Nat) (dor : Nat → DispatchOracle)
    (st : Finset Nat) (msgs : List Nat) : Finset Nat × List Event :=
  msgs.foldl
    (fun acc mid =>
      let r := handle_new_message reactions n dor acc.1 mid
      (r.1, acc.2 ++ r.2))
    (st, [])

/-- Environment of one whole `run` (main.py lines 138-163): whether
`initialize_clients` returned `True`, the client count, the configuration, the
channel history and its retrieval-error point, the live arrivals, the dispatch
oracles and which `client.stop()` calls raise. -/
structure RunEnv where
  initOk : Bool
  numClients : Nat
  reactions : List String
  history : List Nat
  histErrAfter : Option Nat
  liveMsgs : List Nat
  dor : Nat → DispatchOracle
  stopFails : Nat → Bool

/-- The `finally` block's loop `for client in self.clients: await client.stop()`
(main.py lines 161-163): attempts run in registration order and a raising
`stop` aborts the loop, so later clients are not stopped. -/
def stopAux (f : Nat → Bool) : Nat → Nat → List Event
  | 0, _ => []
  | n + 1, i => Event.stopAttempt i :: (if f i then [] else stopAux f n (i + 1))

/-- All stop attempts of the shutdown loop over `n` clients. -/
def stopClients (n : Nat) (f : Nat → Bool) : List Event :=
  stopAux f n 0

/-- The `try` body of `run` (main.py lines 139-157): early return when
`initialize_clients` fails or no client exists; otherwise the backlog pass,
then handler registration per client, then the live phase during the
indefinite wait (ended by the interrupt). -/
def mainTrace (env : RunEnv) : List Event :=
  if env.initOk = false then []
  else if env.numClients = 0 then []
  else
    let b := process_old_messages env.reactions env.numClients env.dor
      env.history env.histErrAfter ∅
    b.2 ++ (List.range env.numClients).map Event.register ++
      (liveLoop env.reactions env.numClients env.dor b.1 env.liveMsgs).2

/-- A whole run: the `try` body's trace, then the `finally` shutdown loop,
which runs on every exit path (early return, interrupt, exception). -/
def runTrace (env : RunEnv) : List Event :=
  mainTrace env ++ stopClients env.numClients env.stopFails

/-- State of two concurrently in-flight live-handler invocations for the same
message id, under the cooperative (asyncio) scheduler: `pc` counts the atomic
segments a task has run, `p` whether its check-then-mark found the id fresh and
the task proceeded to dispatch work. -/
structure ConcState where
  st : Finset Nat
  pc1 : Nat
  p1 : Bool
  pc2 : Nat
  p2 : Bool
  deriving DecidableEq

/-- The test `if message_id in self.processed_messages: return` followed by
`self.processed_messages.add(message_id)` (main.py lines 92-95). -/
def checkAndMark (st : Finset Nat) (m : Nat) : Finset Nat × Bool :=
  if m ∈ st then (st, false) else (insert m st, true)

/-- One atomic segment of a live-handler task.  Segment 0 is the jitter sleep
(a suspension point).  Segment 1 is the check-then-mark: lines 92-95 hold no
`await` between the membership test and the `add`, so the cooperative scheduler
cannot interleave another task inside it.  Later segments are dispatch work
(between suspension points) and do not touch the ledger. -/
def taskStep (m : Nat) (pc : Nat) (p : Bool) (st : Finset Nat) :
    Nat × Bool × Finset Nat :=
  if pc = 0 then (1, p, st)
  else if pc = 1 then
    let r := checkAndMark st m
    (2, r.2, r.1)
  else (pc + 1, p, st)

/-- Run one scheduler choice: `true` steps the first task, `false` the second. -/
def stepConc (m : Nat) (s : ConcState) (first : Bool) : ConcState :=
  if first then
    let r := taskStep m s.pc1 s.p1 s.st
    { s with st := r.2.2, pc1 := r.1, p1 := r.2.1 }
  else
    let r := taskStep m s.pc2 s.p2 s.st
    { s with st := r.2.2, pc2 := r.1, p2 := r.2.1 }

/-- Run an arbitrary finite schedule of the two tasks. -/
def runConc (m : Nat) : List Bool → ConcState → ConcState
  | [], s => s
  | b :: rest, s => runConc m rest (stepConc m s b)

/-- The initial state of two in-flight invocations for message `m` over ledger
`st0`: neither has run any segment, neither has proceeded. -/
def concInit (st0 : Finset Nat) : ConcState :=
  ⟨st0, 0, false, 0, false⟩

/-! Supporting lemmas about the sampling model. -/

theorem sampleAux_length (sel : Nat → Nat) (pop : List String) (k step : Nat) :
    (sampleAux sel pop k step).length = k := by
  induction k generalizing pop step with
  | zero => rfl
  | succ k ih => simp [sampleAux, ih]

theorem sampleAux_mem (sel : Nat → Nat) (pop : List String) (k step : Nat)
    (hk : k ≤ pop.length) : ∀ r ∈ sampleAux sel pop k step, r ∈ pop := by
  induction k generalizing pop step with
  | zero => simp [sampleAux]
  | succ k ih =>
    intro r hr
    have hlen : 0 < pop.length := Nat.lt_of_lt_of_le (Nat.succ_pos k) hk
    have hi : sel step % pop.length < pop.length := Nat.mod_lt _ hlen
    simp only [sampleAux, List.mem_cons] at hr
    rcases hr with h | h
    · rw [h, List.getD_eq_getElem pop "" hi]
      exact List.getElem_mem hi
    · have hk' : k ≤ (pop.eraseIdx (sel step % pop.length)).length := by
        rw [List.length_eraseIdx]
        simp only [hi, if_true]
        omega
      exact List.Sublist.mem (ih _ _ hk' r h) (List.eraseIdx_sublist pop _)

theorem sampleAux_nodup (sel : Nat → Nat) (pop : List String) (k step : Nat)
    (hk : k ≤ pop.length) (hnd : pop.Nodup) : (sampleAux sel pop k step).Nodup := by
  induction k generalizing pop step with
  | zero => simp [sampleAux]
  | succ k ih =>
    have hlen : 0 < pop.length := Nat.lt_of_lt_of_le (Nat.succ_pos k) hk
    have hi : sel step % pop.length < pop.length := Nat.mod_lt _ hlen
    have hk' : k ≤ (pop.eraseIdx (sel step % pop.length)).length := by
      rw [List.length_eraseIdx]
      simp only [hi, if_true]
      omega
    have hnd' : (pop.eraseIdx (sel step % pop.length)).Nodup := hnd.eraseIdx _
    simp only [sampleAux, List.nodup_cons]
    refine ⟨fun hmem => ?_, ih _ _ hk' hnd'⟩
    have hmem' : pop.getD (sel step % pop.length) "" ∈
        pop.eraseIdx (sel step % pop.length) :=
      sampleAux_mem sel _ k (step + 1) hk' _ hmem
    rw [List.getD_eq_getElem pop "" hi] at hmem'
    rcases List.mem_eraseIdx_iff_getElem.1 hmem' with ⟨j, hj, hne, heq⟩
    exact hne (hnd.getElem_inj_iff.1 heq)

theorem num_reactions_bounds (o : DispatchOracle) (ci ti : Nat) :
    1 ≤ num_reactions o ci ti ∧ num_reactions o ci ti ≤ 2 := by
  unfold num_reactions
  split <;> omega

theorem selected_spec (reactions : List String) (o : DispatchOracle) (ci ti : Nat)
    (picked : List String) (h : selected_reactions reactions o ci ti = some picked) :
    picked = sampleAux (o.sel ci ti) reactions (num_reactions o ci ti) 0 ∧
    num_reactions o ci ti ≤ reactions.length := by
  unfold selected_reactions sample at h
  by_cases hk : num_reactions o ci ti ≤ reactions.length
  · rw [if_pos hk] at h
    exact ⟨(Option.some.inj h).symm, hk⟩
  · rw [if_neg hk] at h
    cases h

theorem runTry_fails_of_sendFails (reactions : List String) (o : DispatchOracle)
    (ci ti : Nat) (h : o.sendFails ci ti 0 = true) :
    (runTry reactions o ci ti).2 = false := by
  cases hsel : selected_reactions reactions o ci ti with
  | none => simp [runTry, hsel]
  | some picked =>
    obtain ⟨hpk, hk⟩ := selected_spec reactions o ci ti picked hsel
    have hlen : 0 < picked.length := by
      rw [hpk, sampleAux_length]
      have := num_reactions_bounds o ci ti
      omega
    cases picked with
    | nil => simp at hlen
    | cons r rs => simp [runTry, hsel, submitLoop, h]

theorem submitLoop_ok (o : DispatchOracle) (ci ti : Nat)
    (hok : ∀ j, o.sendFails ci ti j = false) :
    ∀ (picked : List String) (j : Nat),
      submitLoop o ci ti picked j =
        (picked.flatMap (fun r => [Event.submit ci r, Event.sleepUniform 2 4]), true) := by
  intro picked
  induction picked with
  | nil => intro j; simp [submitLoop]
  | cons r rs ih => intro j; simp [submitLoop, hok j, ih (j + 1)]

/-- Oracle drawing `num_reactions = 2` every time, with index draw 0 and no
network failures. -/
def oracleTwo : DispatchOracle :=
  ⟨fun _ _ => true, fun _ _ _ => 0, fun _ _ _ => false⟩

/-- Oracle drawing `num_reactions = 1` every time, with index draw 1 and no
network failures. -/
def oracleOne : DispatchOracle :=
  ⟨fun _ _ => false, fun _ _ _ => 1, fun _ _ _ => false⟩

/-- Oracle whose every `send_reaction` raises. -/
def oracleFail : DispatchOracle :=
  ⟨fun _ _ => false, fun _ _ _ => 0, fun _ _ _ => true⟩

/-- C1.  At-most-once dispatch per message id: a dispatch of an
already-processed id returns at once with no events; the processed set only
grows and always gains the dispatched id; and a second dispatch of the same id
— under any oracle, so in particular after a first call whose submissions all
failed — produces no events at all. -/
theorem dispatch_at_most_once (reactions : List String) (n : Nat)
    (o o2 : DispatchOracle) (st : Finset Nat) (m : Nat) :
    (m ∈ st → react_to_message reactions n o st m = (st, [])) ∧
    st ⊆ (react_to_message reactions n o st m).1 ∧
    m ∈ (react_to_message reactions n o st m).1 ∧
    (react_to_message reactions n o2 (react_to_message reactions n o st m).1 m).2 = [] := by
  by_cases h : m ∈ st <;>
    simp [react_to_message, h, Finset.subset_insert]

/-- C2 counterexample.  With the configured vocabulary `["x", "x"]` (two equal
entries, which the code accepts) and a draw of two reactions, the chosen subset
is `["x", "x"]`: its symbols are not pairwise distinct, against the claim. -/
theorem selected_not_distinct_counterexample :
    selected_reactions ["x", "x"] oracleTwo 0 0 = some ["x", "x"] ∧
    ¬(["x", "x"] : List String).Nodup := by decide

/-- C2 (amended).  Whenever `random.sample` returns a subset, its size is
between 1 and `min 2 |vocabulary|`, every chosen symbol is a member of the
vocabulary, and — when the vocabulary has no duplicate entries — the chosen
symbols are pairwise distinct (the draw is without replacement by position). -/
theorem selected_subset_bounds (reactions : List String) (o : DispatchOracle)
    (ci ti : Nat) (picked : List String)
    (h : selected_reactions reactions o ci ti = some picked) :
    1 ≤ picked.length ∧ picked.length ≤ min 2 reactions.length ∧
    (∀ r ∈ picked, r ∈ reactions) ∧ (reactions.Nodup → picked.Nodup) := by
  obtain ⟨hpk, hk⟩ := selected_spec reactions o ci ti picked h
  have hb := num_reactions_bounds o ci ti
  subst hpk
  rw [sampleAux_length]
  exact ⟨hb.1, le_min hb.2 hk, sampleAux_mem _ _ _ _ hk,
    fun hnd => sampleAux_nodup _ _ _ _ hk hnd⟩

/-- Witness for C2's amended theorem at vocabulary `["a", "b"]`, where the
drawn subset is `["b"]`. -/
theorem selected_subset_bounds_witness :
    1 ≤ (["b"] : List String).length ∧
    (["b"] : List String).length ≤ min 2 (["a", "b"] : List String).length ∧
    (∀ r ∈ (["b"] : List String), r ∈ (["a", "b"] : List String)) ∧
    ((["a", "b"] : List String).Nodup → (["b"] : List String).Nodup) :=
  selected_subset_bounds ["a", "b"] oracleOne 0 0 ["b"] (by decide)

/-- C10.  With a one-entry vocabulary and every `randint(1, 2)` draw landing on
2, `random.sample(vocabulary, 2)` raises before any submission; each such
failure is consumed as a retry, so the session exhausts its three tries —
sleeping the 5s and 10s backoffs — and is reported failed without a single
network submission, although a 1-reaction sample (`sample ["x"] 1`) would have
succeeded. -/
theorem singleton_vocab_starved_session :
    runRetries ["x"] oracleTwo 0 =
      [Event.sleep 5, Event.sleep 10, Event.reportFailure 0] ∧
    (∀ ci r, Event.submit ci r ∉ runRetries ["x"] oracleTwo 0) ∧
    sample ["x"] 1 (fun _ => 0) = some ["x"] := by
  have h : runRetries ["x"] oracleTwo 0 =
      [Event.sleep 5, Event.sleep 10, Event.reportFailure 0] := by decide
  refine ⟨h, ?_, by decide⟩
  intro ci r
  rw [h]
  simp

/-- C3.  A session whose submissions always fail gets exactly three tries:
after failed try `k` (`k < 3`) the loop sleeps exactly `5 * k` seconds (5s then
10s, strictly increasing), and after the third failed try it only reports
failure — no further backoff sleep for that session. -/
theorem retry_bound_and_backoff (reactions : List String) (o : DispatchOracle)
    (ci : Nat) (hFail : ∀ ti j, o.sendFails ci ti j = true) :
    runRetries reactions o ci =
      (runTry reactions o ci 0).1 ++ Event.sleep 5 ::
        ((runTry reactions o ci 1).1 ++ Event.sleep 10 ::
          ((runTry reactions o ci 2).1 ++ [Event.reportFailure ci])) ∧
    (∀ ti, (runTry reactions o ci ti).2 = false) := by
  have hf : ∀ ti, (runTry reactions o ci ti).2 = false := fun ti =>
    runTry_fails_of_sendFails reactions o ci ti (hFail ti 0)
  refine ⟨?_, hf⟩
  simp [runRetries, runRetriesAux, max_retries, retry_delay, hf 0, hf 1, hf 2]

/-- Witness for C3 at vocabulary `["x"]` and an oracle whose sends all raise. -/
theorem retry_bound_and_backoff_witness :
    (∀ ti j, oracleFail.sendFails 0 ti j = true) ∧
    (runRetries ["x"] oracleFail 0 =
      (runTry ["x"] oracleFail 0 0).1 ++ Event.sleep 5 ::
        ((runTry ["x"] oracleFail 0 1).1 ++ Event.sleep 10 ::
          ((runTry ["x"] oracleFail 0 2).1 ++ [Event.reportFailure 0])) ∧
    (∀ ti, (runTry ["x"] oracleFail 0 ti).2 = false)) :=
  ⟨fun _ _ => rfl, retry_bound_and_backoff ["x"] oracleFail 0 (fun _ _ => rfl)⟩

/-- C7 counterexample.  A try whose chosen subset has size 1 still sleeps 2-4s
after its only (and final) reaction: the try's trace is
`[submit, sleepUniform 2 4]`, against the claim that a size-1 subset involves
no such sleep and that none follows the final reaction. -/
theorem sleep_after_single_reaction_counterexample :
    (runTry ["x"] oracleOne 0 0).1 = [Event.submit 0 "x", Event.sleepUniform 2 4] ∧
    Event.sleepUniform 2 4 ∈ (runTry ["x"] oracleOne 0 0).1 := by decide

/-- C7 (amended).  Within a try whose submissions all succeed, the reactions of
the chosen subset are submitted sequentially and a uniform 2-4s sleep follows
every submitted reaction — including the final one (the sleep sits inside the
loop body after the `send_reaction`, not between iterations only). -/
theorem sleep_follows_every_reaction (reactions : List String) (o : DispatchOracle)
    (ci ti : Nat) (picked : List String)
    (hsel : selected_reactions reactions o ci ti = some picked)
    (hok : ∀ j, o.sendFails ci ti j = false) :
    runTry reactions o ci ti =
      (picked.flatMap (fun r => [Event.submit ci r, Event.sleepUniform 2 4]), true) := by
  unfold runTry
  rw [hsel]
  exact submitLoop_ok o ci ti hok picked 0

/-- Witness for C7's amended theorem at vocabulary `["x"]` with subset `["x"]`. -/
theorem sleep_follows_every_reaction_witness :
    runTry ["x"] oracleOne 0 0 =
      ((["x"] : List String).flatMap
        (fun r => [Event.submit 0 r, Event.sleepUniform 2 4]), true) :=
  sleep_follows_every_reaction ["x"] oracleOne 0 0 ["x"] (by decide) (fun _ => rfl)

/-- Two oracles agree on everything client `ci` observes: its `randint` draws,
its `sample` draws and its network outcomes. -/
def OracleAgreesAt (o o2 : DispatchOracle) (ci : Nat) : Prop :=
  (∀ ti, o.two ci ti = o2.two ci ti) ∧
  (∀ ti j, o.sel ci ti j = o2.sel ci ti j) ∧
  (∀ ti j, o.sendFails ci ti j = o2.sendFails ci ti j)

theorem submitLoop_congr (o o2 : DispatchOracle) (ci ti : Nat)
    (h : ∀ j, o.sendFails ci ti j = o2.sendFails ci ti j) :
    ∀ (picked : List String) (j : Nat),
      submitLoop o ci ti picked j = submitLoop o2 ci ti picked j := by
  intro picked
  induction picked with
  | nil => intro j; rfl
  | cons r rs ih => intro j; simp only [submitLoop, h j, ih (j + 1)]

theorem runTry_congr (reactions : List String) (o o2 : DispatchOracle) (ci : Nat)
    (h : OracleAgreesAt o o2 ci) (ti : Nat) :
    runTry reactions o ci ti = runTry reactions o2 ci ti := by
  obtain ⟨h2, hsel, hsend⟩ := h
  have hselfun : o.sel ci ti = o2.sel ci ti := funext fun j => hsel ti j
  have hnum : num_reactions o ci ti = num_reactions o2 ci ti := by
    unfold num_reactions
    rw [h2 ti]
  have hpick : selected_reactions reactions o ci ti =
      selected_reactions reactions o2 ci ti := by
    unfold selected_reactions
    rw [hnum, hselfun]
  unfold runTry
  rw [hpick]
  cases selected_reactions reactions o2 ci ti with
  | none => rfl
  | some picked => exact submitLoop_congr o o2 ci ti (hsend ti) picked 0

theorem runRetriesAux_congr (reactions : List String) (o o2 : DispatchOracle)
    (ci : Nat) (h : OracleAgreesAt o o2 ci) :
    ∀ fuel retries, runRetriesAux reactions o ci fuel retries =
      runRetriesAux reactions o2 ci fuel retries := by
  intro fuel
  induction fuel with
  | zero => intro retries; rfl
  | succ fuel ih =>
    intro retries
    simp only [runRetriesAux, runTry_congr reactions o o2 ci h retries, ih (retries + 1)]

/-- C4.  A dispatch of a fresh id runs every registered client's full sequence
(retry loop then inter-account pacing) in registration order, and one client's
sequence is a function of that client's own draws and network outcomes alone:
another session failing its every submission cannot change it.  All exceptions
of the loop body are caught inside `react_to_message`, whose embedding is a
total function: nothing propagates to the caller. -/
theorem dispatch_isolates_sessions (reactions : List String) (n : Nat)
    (o o2 : DispatchOracle) (st : Finset Nat) (m ci : Nat)
    (hm : m ∉ st) (hag : OracleAgreesAt o o2 ci) :
    (react_to_message reactions n o st m).2 =
      ((List.range n).map (clientEvents reactions o)).flatten ∧
    clientEvents reactions o ci = clientEvents reactions o2 ci := by
  constructor
  · simp [react_to_message, hm]
  · unfold clientEvents runRetries
    rw [runRetriesAux_congr reactions o o2 ci hag max_retries 0]

/-- Oracle whose sends raise exactly for client 0. -/
def oracleFailClientZero : DispatchOracle :=
  ⟨fun _ _ => false, fun _ _ _ => 1, fun ci _ _ => ci == 0⟩

/-- Witness for C4: client 1's sequence is the same whether client 0's sends
all raise (`oracleFailClientZero`) or all succeed (`oracleOne`). -/
theorem dispatch_isolates_sessions_witness :
    (react_to_message ["x"] 2 oracleFailClientZero ∅ 5).2 =
      ((List.range 2).map (clientEvents ["x"] oracleFailClientZero)).flatten ∧
    clientEvents ["x"] oracleFailClientZero 1 = clientEvents ["x"] oracleOne 1 :=
  dispatch_isolates_sessions ["x"] 2 oracleFailClientZero oracleOne ∅ 5 1
    (by decide) ⟨fun _ => rfl, fun _ _ => rfl, fun _ _ => rfl⟩

/-- Invariant of two in-flight invocations for message `m`: a task that
proceeded past the check saw the id marked, and the two tasks never both
proceed. -/
def ConcInv (m : Nat) (s : ConcState) : Prop :=
  (s.p1 = true → m ∈ s.st) ∧ (s.p2 = true → m ∈ s.st) ∧
  ¬(s.p1 = true ∧ s.p2 = true)

theorem concInv_step (m : Nat) (s : ConcState) (b : Bool) (h : ConcInv m s) :
    ConcInv m (stepConc m s b) := by
  obtain ⟨h1, h2, h12⟩ := h
  cases b with
  | true =>
    show ConcInv m (stepConc m s true)
    unfold stepConc taskStep checkAndMark
    by_cases hpc : s.pc1 = 0
    · simp only [if_pos hpc, if_true]
      exact ⟨h1, h2, h12⟩
    · by_cases hpc1 : s.pc1 = 1
      · by_cases hm : m ∈ s.st
        · simp only [if_neg hpc, if_pos hpc1, if_pos hm, if_true]
          exact ⟨fun hc => Bool.noConfusion hc, h2, fun hc => Bool.noConfusion hc.1⟩
        · simp only [if_neg hpc, if_pos hpc1, if_neg hm, if_true]
          exact ⟨fun _ => Finset.mem_insert_self m s.st,
            fun hp => Finset.mem_insert_of_mem (h2 hp), fun hc => hm (h2 hc.2)⟩
      · simp only [if_neg hpc, if_neg hpc1, if_true]
        exact ⟨h1, h2, h12⟩
  | false =>
    show ConcInv m (stepConc m s false)
    unfold stepConc taskStep checkAndMark
    by_cases hpc : s.pc2 = 0
    · simp only [if_pos hpc, Bool.false_eq_true, if_false]
      exact ⟨h1, h2, h12⟩
    · by_cases hpc1 : s.pc2 = 1
      · by_cases hm : m ∈ s.st
        · simp only [if_neg hpc, if_pos hpc1, if_pos hm, Bool.false_eq_true, if_false]
          exact ⟨h1, fun hc => Bool.noConfusion hc, fun hc => Bool.noConfusion hc.2⟩
        · simp only [if_neg hpc, if_pos hpc1, if_neg hm, Bool.false_eq_true, if_false]
          exact ⟨fun hp => Finset.mem_insert_of_mem (h1 hp),
            fun _ => Finset.mem_insert_self m s.st, fun hc => hm (h1 hc.1)⟩
      · simp only [if_neg hpc, if_neg hpc1, Bool.false_eq_true, if_false]
        exact ⟨h1, h2, h12⟩

theorem concInv_run (m : Nat) (sched : List Bool) (s : ConcState)
    (h : ConcInv m s) : ConcInv m (runConc m sched s) := by
  induction sched generalizing s with
  | nil => exact h
  | cons b rest ih => exact ih _ (concInv_step m s b h)

/-- C9.  Under every cooperative schedule of two in-flight live invocations for
the same message id, at most one proceeds past the check-then-mark (lines 92-95
hold no suspension point between check and mark, so the step is atomic for the
asyncio scheduler), and a task that did proceed left the id marked. -/
theorem live_check_then_mark_atomic (m : Nat) (st0 : Finset Nat)
    (sched : List Bool) :
    ¬((runConc m sched (concInit st0)).p1 = true ∧
      (runConc m sched (concInit st0)).p2 = true) ∧
    ((runConc m sched (concInit st0)).p1 = true →
      m ∈ (runConc m sched (concInit st0)).st) ∧
    ((runConc m sched (concInit st0)).p2 = true →
      m ∈ (runConc m sched (concInit st0)).st) := by
  have h := concInv_run m sched (concInit st0)
    ⟨fun hc => Bool.noConfusion hc, fun hc => Bool.noConfusion hc,
      fun hc => Bool.noConfusion hc.1⟩
  exact ⟨h.2.2, h.1, h.2.1⟩

/-- Whether an event is a live-handler invocation. -/
def isLiveEvent : Event → Bool
  | Event.liveEvent _ => true
  | _ => false

theorem isLiveEvent_submitLoop (o : DispatchOracle) (ci ti : Nat) :
    ∀ (picked : List String) (j : Nat),
      ∀ e ∈ (submitLoop o ci ti picked j).1, isLiveEvent e = false := by
  intro picked
  induction picked with
  | nil => intro j e he; simp [submitLoop] at he
  | cons r rs ih =>
    intro j e he
    by_cases hf : o.sendFails ci ti j
    · simp [submitLoop, hf] at he
      rw [he]
      rfl
    · simp only [submitLoop, if_neg hf, List.mem_cons] at he
      rcases he with rfl | rfl | he
      · rfl
      · rfl
      · exact ih (j + 1) e he

theorem isLiveEvent_runTry (reactions : List String) (o : DispatchOracle)
    (ci ti : Nat) : ∀ e ∈ (runTry reactions o ci ti).1, isLiveEvent e = false := by
  intro e he
  unfold runTry at he
  cases hsel : selected_reactions reactions o ci ti with
  | none => rw [hsel] at he; simp at he
  | some picked =>
    rw [hsel] at he
    exact isLiveEvent_submitLoop o ci ti picked 0 e he

theorem isLiveEvent_runRetriesAux (reactions : List String) (o : DispatchOracle)
    (ci : Nat) : ∀ (fuel retries : Nat),
      ∀ e ∈ runRetriesAux reactions o ci fuel retries, isLiveEvent e = false := by
  intro fuel
  induction fuel with
  | zero => intro retries e he; simp [runRetriesAux] at he
  | succ fuel ih =>
    intro retries e he
    unfold runRetriesAux at he
    by_cases hr : retries < max_retries
    · rw [if_pos hr] at he
      by_cases ht : (runTry reactions o ci retries).2
      · rw [if_pos ht] at he
        exact isLiveEvent_runTry reactions o ci retries e he
      · rw [if_neg ht] at he
        by_cases hr2 : retries + 1 < max_retries
        · rw [if_pos hr2] at he
          rcases List.mem_append.1 he with he | he
          · exact isLiveEvent_runTry reactions o ci retries e he
          · rcases List.mem_cons.1 he with rfl | he
            · rfl
            · exact ih (retries + 1) e he
        · rw [if_neg hr2] at he
          rcases List.mem_append.1 he with he | he
          · exact isLiveEvent_runTry reactions o ci retries e he
          · rcases List.mem_singleton.1 he with rfl
            rfl
    · rw [if_neg hr] at he
      simp at he

theorem isLiveEvent_react (reactions : List String) (n : Nat) (o : DispatchOracle)
    (st : Finset Nat) (m : Nat) :
    ∀ e ∈ (react_to_message reactions n o st m).2, isLiveEvent e = false := by
  intro e he
  unfold react_to_message at he
  by_cases hm : m ∈ st
  · rw [if_pos hm] at he; simp at he
  · rw [if_neg hm] at he
    simp only [List.mem_flatten, List.mem_map] at he
    obtain ⟨l, ⟨ci, _, rfl⟩, hel⟩ := he
    unfold clientEvents at hel
    rcases List.mem_append.1 hel with hel | hel
    · exact isLiveEvent_runRetriesAux reactions o ci max_retries 0 e hel
    · rcases List.mem_singleton.1 hel with rfl
      rfl

theorem isLiveEvent_backlogLoop (reactions : List String) (n : Nat)
    (dor : Nat → DispatchOracle) :
    ∀ (msgs : List Nat) (acc : Finset Nat × List Event),
      (∀ e ∈ acc.2, isLiveEvent e = false) →
      ∀ e ∈ (msgs.foldl (backlogStep reactions n dor) acc).2, isLiveEvent e = false := by
  intro msgs
  induction msgs with
  | nil => intro acc hacc e he; exact hacc e he
  | cons mid rest ih =>
    intro acc hacc e he
    refine ih (backlogStep reactions n dor acc mid) ?_ e he
    intro e2 he2
    unfold backlogStep at he2
    rcases List.mem_append.1 he2 with he2 | he2
    · rcases List.mem_append.1 he2 with he2 | he2
      · exact hacc e2 he2
      · exact isLiveEvent_react reactions n (dor mid) acc.1 mid e2 he2
    · rcases List.mem_singleton.1 he2 with rfl
      rfl

theorem isLiveEvent_processOld (reactions : List String) (n : Nat)
    (dor : Nat → DispatchOracle) (history : List Nat) (histErrAfter : Option Nat)
    (st : Finset Nat) :
    ∀ e ∈ (process_old_messages reactions n dor history histErrAfter st).2,
      isLiveEvent e = false := by
  intro e he
  unfold process_old_messages at he
  by_cases hn : n = 0
  · rw [if_pos hn] at he; simp at he
  · rw [if_neg hn] at he
    rcases List.mem_cons.1 he with rfl | he
    · rfl
    · exact isLiveEvent_backlogLoop reactions n dor _ (st, [])
        (fun e2 he2 => by simp at he2) e he

/-- C5.  In a run that reaches the backlog phase, the whole trace is the
backlog pass, then the handler registrations, then the live phase, then
shutdown — and neither the backlog pass nor the registrations contain any
live-handler invocation, so no live message is dispatched before the backlog
pass has completed. -/
theorem backlog_before_live (env : RunEnv) (hInit : env.initOk = true)
    (hn : env.numClients ≠ 0) :
    runTrace env =
      (process_old_messages env.reactions env.numClients env.dor env.history
        env.histErrAfter ∅).2 ++
      ((List.range env.numClients).map Event.register ++
        ((liveLoop env.reactions env.numClients env.dor
          (process_old_messages env.reactions env.numClients env.dor env.history
            env.histErrAfter ∅).1 env.liveMsgs).2 ++
          stopClients env.numClients env.stopFails)) ∧
    (∀ e ∈ (process_old_messages env.reactions env.numClients env.dor env.history
        env.histErrAfter ∅).2, isLiveEvent e = false) ∧
    (∀ e ∈ (List.range env.numClients).map Event.register, isLiveEvent e = false) := by
  refine ⟨?_, isLiveEvent_processOld _ _ _ _ _ _, ?_⟩
  · simp [runTrace, mainTrace, hInit, hn, List.append_assoc]
  · intro e he
    rcases List.mem_map.1 he with ⟨ci, _, rfl⟩
    rfl

/-- Environment used in concrete run-level witnesses: one client, vocabulary
`["x"]`, backlog `[7]`, live arrivals `[7, 8]`, no failures. -/
def envLive : RunEnv :=
  ⟨true, 1, ["x"], [7], none, [7, 8], fun _ => oracleOne, fun _ => false⟩

/-- Witness for C5 at `envLive`. -/
theorem backlog_before_live_witness :
    runTrace envLive =
      (process_old_messages envLive.reactions envLive.numClients envLive.dor
        envLive.history envLive.histErrAfter ∅).2 ++
      ((List.range envLive.numClients).map Event.register ++
        ((liveLoop envLive.reactions envLive.numClients envLive.dor
          (process_old_messages envLive.reactions envLive.numClients envLive.dor
            envLive.history envLive.histErrAfter ∅).1 envLive.liveMsgs).2 ++
          stopClients envLive.numClients envLive.stopFails)) ∧
    (∀ e ∈ (process_old_messages envLive.reactions envLive.numClients envLive.dor
        envLive.history envLive.histErrAfter ∅).2, isLiveEvent e = false) ∧
    (∀ e ∈ (List.range envLive.numClients).map Event.register,
      isLiveEvent e = false) :=
  backlog_before_live envLive rfl (by decide)

/-- C6.  The backlog pass fetches history through the first-registered client
(`fetchHistory 0`), processes at most 100 messages, and — when retrieval
raises after `k` yields — processes exactly the first `k` of the capability's
(at most 100) messages and still returns normally; each processed message is
dispatched and then followed by a uniform 5-8s sleep. -/
theorem backlog_contract (reactions : List String) (n : Nat)
    (dor : Nat → DispatchOracle) (hist : List Nat) (k : Nat) (st : Finset Nat)
    (hn : n ≠ 0) :
    (process_old_messages reactions n dor hist (some k) st).2 =
      Event.fetchHistory 0 ::
        (backlogLoop reactions n dor st ((hist.take 100).take k)).2 ∧
    ((hist.take 100).take k).length ≤ 100 ∧
    (∀ (st2 : Finset Nat) (ms : List Nat) (mid : Nat),
      (backlogLoop reactions n dor st2 (ms ++ [mid])).2 =
        (backlogLoop reactions n dor st2 ms).2 ++
          (react_to_message reactions n (dor mid)
            (backlogLoop reactions n dor st2 ms).1 mid).2 ++
        [Event.sleepUniform 5 8]) := by
  refine ⟨by simp [process_old_messages, hn], ?_, ?_⟩
  · simp only [List.length_take]
    omega
  · intro st2 ms mid
    simp [backlogLoop, List.foldl_append, backlogStep]

/-- Witness for C6: one client, history `[7, 8]`, retrieval raising after one
yield, so only message 7 is processed. -/
theorem backlog_contract_witness :
    (process_old_messages ["x"] 1 (fun _ => oracleOne) [7, 8] (some 1) ∅).2 =
      Event.fetchHistory 0 ::
        (backlogLoop ["x"] 1 (fun _ => oracleOne) ∅ (([7, 8].take 100).take 1)).2 ∧
    ((([7, 8] : List Nat).take 100).take 1).length ≤ 100 ∧
    (∀ (st2 : Finset Nat) (ms : List Nat) (mid : Nat),
      (backlogLoop ["x"] 1 (fun _ => oracleOne) st2 (ms ++ [mid])).2 =
        (backlogLoop ["x"] 1 (fun _ => oracleOne) st2 ms).2 ++
          (react_to_message ["x"] 1 oracleOne
            (backlogLoop ["x"] 1 (fun _ => oracleOne) st2 ms).1 mid).2 ++
        [Event.sleepUniform 5 8]) :=
  backlog_contract ["x"] 1 (fun _ => oracleOne) [7, 8] 1 ∅ (by decide)

/-- Environment whose `initialize_clients` fails with two opened clients, and
whose first `client.stop()` raises. -/
def envStopFail : RunEnv :=
  ⟨false, 2, [], [], none, [], fun _ => oracleOne, fun i => i == 0⟩

/-- C8 counterexample.  With two opened sessions and the first `client.stop()`
raising, the shutdown loop ends at that exception: the second session's stop is
never attempted, against the claim that release proceeds even if one fails. -/
theorem stop_not_best_effort_counterexample :
    runTrace envStopFail = [Event.stopAttempt 0] ∧
    Event.stopAttempt 1 ∉ runTrace envStopFail := by decide

theorem stopAux_all_ok (f : Nat → Bool) (hok : ∀ i, f i = false) :
    ∀ n i0, stopAux f n i0 = (List.range' i0 n).map Event.stopAttempt := by
  intro n
  induction n with
  | zero => intro i0; rfl
  | succ n ih =>
    intro i0
    simp [stopAux, hok i0, ih (i0 + 1), List.range'_succ]

/-- C8 (amended).  On every exit path the `finally` loop attempts the sessions'
releases in registration order, stopping at the first raising release; when no
release raises, every opened session is released. -/
theorem shutdown_releases_until_failure (env : RunEnv)
    (hok : ∀ i, env.stopFails i = false) :
    runTrace env =
      mainTrace env ++ (List.range env.numClients).map Event.stopAttempt ∧
    ∀ i < env.numClients, Event.stopAttempt i ∈ runTrace env := by
  have h : stopClients env.numClients env.stopFails =
      (List.range env.numClients).map Event.stopAttempt := by
    unfold stopClients
    rw [stopAux_all_ok env.stopFails hok, ← List.range_eq_range']
  refine ⟨by unfold runTrace; rw [h], ?_⟩
  intro i hi
  unfold runTrace
  rw [h]
  exact List.mem_append_right _ (List.mem_map.mpr ⟨i, List.mem_range.mpr hi, rfl⟩)

/-- Witness for C8's amended theorem at `envLive`, whose stops all succeed. -/
theorem shutdown_releases_until_failure_witness :
    (runTrace envLive =
      mainTrace envLive ++ (List.range envLive.numClients).map Event.stopAttempt) ∧
    ∀ i < envLive.numClients, Event.stopAttempt i ∈ runTrace envLive :=
  shutdown_releases_until_failure envLive (fun _ => rfl)
